import Mathlib

/-!
# UnixShell: the job-control wait subsystem (`src/wait.c`)

A shallow embedding of `wait_on_fg_pgid`, `wait_on_fg_job` and
`wait_on_bg_jobs`.  The C functions act on ambient state (the job table of
`jobs.c`, `params.status`, `is_interactive`, the controlling terminal, the
children of the shell); here that state is one explicit record, `World`,
passed in and returned.
-/

namespace UnixShell

/-! ## Wait statuses (`<sys/wait.h>`, glibc encoding) -/

/-- Signal number field of a status: `status & 0x7f`. -/
def WTERMSIG (status : Int) : Int := status % 128

/-- Exit code field of a status: `(status & 0xff00) >> 8`. -/
def WEXITSTATUS (status : Int) : Int := status % 65536 / 256

/-- Clean exit: `WTERMSIG(status) == 0`. -/
def WIFEXITED (status : Int) : Bool := WTERMSIG status == 0

/-- Killed by a signal: `((signed char) ((status & 0x7f) + 1) >> 1) > 0`. -/
def WIFSIGNALED (status : Int) : Bool :=
  let t := status % 128 + 1
  let sc := if 128 ≤ t then t - 256 else t
  decide (0 < sc / 2)

/-- Stopped child: `(status & 0xff) == 0x7f`. -/
def WIFSTOPPED (status : Int) : Bool := status % 256 == 127

/-- Signal number `SIGCONT` on Linux. -/
def SIGCONT : Int := 18

/-- File descriptor of standard input. -/
def STDIN_FILENO : Int := 0

/-! ## The job table interface (`jobs.h`) -/

/-- One entry of the job table: `struct job`. -/
structure job where
  jid : Int
  pgid : Int
  status : Int
deriving DecidableEq, Repr

/-- The functions of `jobs.h` that `wait.c` calls, over a job table of type
`R`.  A C function that reports failure by a negative return value gives
`none` here; `jobs_get_jid` keeps its integer result (negative: not found).
The pair `jobs_get_joblist_size` / `jobs_get_joblist` is one list. -/
structure JobsApi (R : Type) where
  jobs_get_jid : R → Int → Int
  jobs_get_pgid : R → Int → Int
  jobs_get_status : R → Int → Option Int
  jobs_set_status : R → Int → Int → Option R
  jobs_remove_pgid : R → Int → R
  jobs_get_joblist : R → List job

/-! ## The operating system as seen by `wait.c` -/

/-- What one `waitpid` call reports. -/
inductive WaitRes where
  /-- A positive return value: a child changed state, `status` is valid. -/
  | changed (status : Int)
  /-- Return value `0`: children exist, none changed state (only with `WNOHANG`). -/
  | nochange
  /-- Return value `-1` with `errno == ECHILD`. -/
  | echild
  /-- Return value `-1` with any other `errno`. -/
  | error
deriving DecidableEq, Repr

/-- The `options` argument of `waitpid`, one field per flag. -/
structure WaitOptions where
  WNOHANG : Bool
  WUNTRACED : Bool
deriving DecidableEq, Repr

/-- A system call issued by the shell, with its arguments. -/
inductive Call where
  | kill (pid : Int) (sig : Int)
  | tcgetpgrp (fd : Int)
  | tcsetpgrp (fd : Int) (pgrp : Int)
  | waitpid (pid : Int) (options : WaitOptions)
deriving DecidableEq, Repr

/-- The word of a status line. -/
inductive Notice where
  | Stopped
  | Done
  | Terminated
deriving DecidableEq, Repr

/-- A line written to the diagnostic stream: `fprintf(stderr, "[%jd] <word>\n", jid)`. -/
structure Line where
  jid : Int
  word : Notice
deriving DecidableEq, Repr

/-- The characters of a status word. -/
def Notice.text : Notice → String
  | .Stopped => "Stopped"
  | .Done => "Done"
  | .Terminated => "Terminated"

/-- The characters of a status line. -/
def Line.text (l : Line) : String :=
  "[" ++ toString l.jid ++ "] " ++ l.word.text ++ "\n"

/-- Everything `wait.c` reads or changes.

* `registry` is the job table, `params_status` is `params.status`.
* `tty_pgrp` is the foreground process group of the controlling terminal.
* `stderr` and `calls` record, in order, the lines written and the system
  calls issued.
* `fails k` tells whether the `k`-th system call of the log (counted from 0)
  fails, when it is a `kill`, `tcgetpgrp` or `tcsetpgrp`.
* `pending pid` lists what the coming `waitpid(pid, ...)` calls report, in
  order.  Once the list is used up a `WNOHANG` call reports no change and a
  blocking call never returns. -/
structure World (R : Type) where
  registry : R
  params_status : Int
  is_interactive : Bool
  tty_pgrp : Int
  stderr : List Line
  calls : List Call
  fails : Nat → Bool
  pending : Int → List WaitRes

variable {R : Type}

/-- Append a call to the log. -/
def World.record (w : World R) (c : Call) : World R :=
  { w with calls := w.calls ++ [c] }

/-- Write one status line to the diagnostic stream. -/
def World.fprintf (w : World R) (jid : Int) (word : Notice) : World R :=
  { w with stderr := w.stderr ++ [⟨jid, word⟩] }

/-- The call `kill(pid, sig)`: `0`, or `-1` on failure. -/
def kill (w : World R) (pid sig : Int) : Int × World R :=
  if w.fails w.calls.length then (-1, w.record (.kill pid sig))
  else (0, w.record (.kill pid sig))

/-- The call `tcgetpgrp(fd)`: the terminal's foreground process group, or `-1`. -/
def tcgetpgrp (w : World R) (fd : Int) : Int × World R :=
  if w.fails w.calls.length then (-1, w.record (.tcgetpgrp fd))
  else (w.tty_pgrp, w.record (.tcgetpgrp fd))

/-- The call `tcsetpgrp(fd, pgrp)`: `0` and the terminal's foreground group is
`pgrp`, or `-1` and nothing changes. -/
def tcsetpgrp (w : World R) (fd pgrp : Int) : Int × World R :=
  if w.fails w.calls.length then (-1, w.record (.tcsetpgrp fd pgrp))
  else (0, { w.record (.tcsetpgrp fd pgrp) with tty_pgrp := pgrp })

/-- The call `waitpid(pid, &status, options)`; `none` when it never returns. -/
def waitpid (w : World R) (pid : Int) (options : WaitOptions) :
    Option WaitRes × World R :=
  match w.pending pid with
  | [] =>
    if options.WNOHANG then (some .nochange, w.record (.waitpid pid options))
    else (none, w.record (.waitpid pid options))
  | r :: q =>
    (some r, { w.record (.waitpid pid options) with
               pending := fun p => if p = pid then q else w.pending p })

/-- Which children a `waitpid(pid, ...)` call waits for (waitpid(2)). -/
inductive WaitTarget where
  /-- The argument `pid < -1`: any child whose process group id is `-pid`. -/
  | group (pgid : Int)
  /-- The argument `-1`: any child. -/
  | any_child
  /-- The argument `0`: any child in the caller's own process group. -/
  | own_group
  /-- The argument `pid > 0`: the single child whose process id is `pid`. -/
  | process (pid : Int)
deriving DecidableEq, Repr

/-- Decode the first argument of `waitpid`. -/
def waitpid_target (pid : Int) : WaitTarget :=
  if pid < -1 then .group (-pid)
  else if pid = -1 then .any_child
  else if pid = 0 then .own_group
  else .process pid

/-! ## `wait_on_fg_pgid` -/

/-- The `for (;;)` loop of `wait_on_fg_pgid` (lines 50-100) up to the labels
`out:` / `err:`: the result is `retval` (`0` after `goto out`, `-1` after
`goto err`), or `none` when the loop never gets there (the blocking `waitpid`
does not return, or `assert(res > 0)` aborts).  The first argument bounds
the number of iterations. -/
def fg_loop (api : JobsApi R) (pgid jid : Int) : Nat → World R → Option Int × World R
  | 0, w => (none, w)
  | n + 1, w =>
    match waitpid w (-pgid) ⟨false, true⟩ with
    | (none, w1) => (none, w1)
    | (some .echild, w1) =>
      match api.jobs_get_status w1.registry jid with
      | none => (some (-1), w1)
      | some status =>
        let w2 :=
          if WIFEXITED status then { w1 with params_status := WEXITSTATUS status }
          else if WIFSIGNALED status then { w1 with params_status := 128 + WTERMSIG status }
          else w1
        (some 0, { w2 with registry := api.jobs_remove_pgid w2.registry pgid })
    | (some .error, w1) => (some (-1), w1)
    | (some .nochange, w1) => (none, w1)
    | (some (.changed status), w1) =>
      match api.jobs_set_status w1.registry jid status with
      | none => (some (-1), w1)
      | some r =>
        if WIFSTOPPED status then
          (some 0, ({ w1 with registry := r }).fprintf jid .Stopped)
        else fg_loop api pgid jid n { w1 with registry := r }

/-- The end of `wait_on_fg_pgid` (lines 102-118), entered with `retval`:
in interactive mode the terminal is handed back to `ushellpgid`. -/
def fg_restore (ushellpgid retval : Int) (w : World R) : Option Int × World R :=
  if w.is_interactive then
    match tcsetpgrp w STDIN_FILENO ushellpgid with
    | (r5, w5) => if r5 < 0 then (some (-1), w5) else (some retval, w5)
  else (some retval, w)

/-- The function `wait_on_fg_pgid(pgid)`: its return value (`none` when the
call does not return) and the state it leaves. -/
def wait_on_fg_pgid (api : JobsApi R) (pgid : Int) (w : World R) : Option Int × World R :=
  let neg_pgid := -pgid
  if pgid < 0 then (some (-1), w) else
  let jid := api.jobs_get_jid w.registry pgid
  if jid < 0 then (some (-1), w) else
  match kill w neg_pgid SIGCONT with
  | (r1, w1) =>
  if r1 < 0 then (some (-1), w1) else
  match tcgetpgrp w1 STDIN_FILENO with
  | (ushellpgid, w2) =>
  if ushellpgid < 0 then (some (-1), w2) else
  match (if w2.is_interactive then tcsetpgrp w2 STDIN_FILENO pgid else (0, w2)) with
  | (r3, w3) =>
  if r3 < 0 then (some (-1), w3) else
  match fg_loop api pgid jid ((w3.pending neg_pgid).length + 1) w3 with
  | (none, w4) => (none, w4)
  | (some retval, w4) => fg_restore ushellpgid retval w4

/-- The function `wait_on_fg_job(jid)`. -/
def wait_on_fg_job (api : JobsApi R) (jid : Int) (w : World R) : Option Int × World R :=
  let pgid := api.jobs_get_pgid w.registry jid
  if pgid < 0 then (some (-1), w) else wait_on_fg_pgid api pgid w

/-! ## `wait_on_bg_jobs` -/

/-- How the inner `for (;;)` of `wait_on_bg_jobs` is left. -/
inductive Flow where
  /-- By `break`: the outer loop goes on with `++i`. -/
  | next
  /-- By `return r`. -/
  | ret (r : Int)
  /-- Not at all. -/
  | spin
deriving DecidableEq, Repr

/-- The inner `for (;;)` of `wait_on_bg_jobs` (lines 138-174) for the job
`(pgid, jid)`; `jobs` is the local snapshot of the job list, refreshed after a
removal.  The first argument bounds the number of iterations. -/
def bg_poll (api : JobsApi R) (pgid jid : Int) :
    Nat → List job → World R → Flow × List job × World R
  | 0, jobs, w => (.spin, jobs, w)
  | n + 1, jobs, w =>
    match waitpid w pgid ⟨true, true⟩ with
    | (none, w1) => (.spin, jobs, w1)
    | (some .nochange, w1) => (.next, jobs, w1)
    | (some .echild, w1) =>
      match api.jobs_get_status w1.registry jid with
      | none => (.ret (-1), jobs, w1)
      | some status =>
        let w2 :=
          if WIFEXITED status then w1.fprintf jid .Done
          else if WIFSIGNALED status then w1.fprintf jid .Terminated
          else w1
        let w3 := { w2 with registry := api.jobs_remove_pgid w2.registry pgid }
        (.next, api.jobs_get_joblist w3.registry, w3)
    | (some .error, w1) => (.ret (-1), jobs, w1)
    | (some (.changed status), w1) =>
      match api.jobs_set_status w1.registry jid status with
      | none => (.ret (-1), jobs, w1)
      | some r =>
        if WIFSTOPPED status then
          (.next, jobs, ({ w1 with registry := r }).fprintf jid .Stopped)
        else bg_poll api pgid jid n jobs { w1 with registry := r }

/-- The outer loop of `wait_on_bg_jobs` (lines 135-176) from index `i` on;
`job_count` is the length of `jobs`.  The first argument bounds the number of
iterations, `none` is returned when it is used up. -/
def bg_loop (api : JobsApi R) : Nat → Nat → List job → World R → Option Int × World R
  | 0, _, _, w => (none, w)
  | fuel + 1, i, jobs, w =>
    match jobs[i]? with
    | none => (some 0, w)
    | some j =>
      match bg_poll api j.pgid j.jid ((w.pending j.pgid).length + 1) jobs w with
      | (.next, jobs1, w1) => bg_loop api fuel (i + 1) jobs1 w1
      | (.ret r, _, w1) => (some r, w1)
      | (.spin, _, w1) => (none, w1)

/-- The function `wait_on_bg_jobs()`. -/
def wait_on_bg_jobs (api : JobsApi R) (fuel : Nat) (w : World R) : Option Int × World R :=
  bg_loop api fuel 0 (api.jobs_get_joblist w.registry) w

/-! ## A job table kept as a list -/

/-- Modelled from the spec: `jobs.c` is not part of the sources.  Lookup of
the job id by process-group id, negative when no job has that group. -/
def jobs_get_jid : List job → Int → Int
  | [], _ => -1
  | j :: r, pgid => if j.pgid = pgid then j.jid else jobs_get_jid r pgid

/-- Modelled from the spec: `jobs.c` is not part of the sources.  Lookup of
the process-group id by job id, negative when there is no such job. -/
def jobs_get_pgid : List job → Int → Int
  | [], _ => -1
  | j :: r, jid => if j.jid = jid then j.pgid else jobs_get_pgid r jid

/-- Modelled from the spec: `jobs.c` is not part of the sources.  The last
status stored for a job id. -/
def jobs_get_status : List job → Int → Option Int
  | [], _ => none
  | j :: r, jid => if j.jid = jid then some j.status else jobs_get_status r jid

/-- Modelled from the spec: `jobs.c` is not part of the sources.  Overwrite
the last status stored for a job id. -/
def jobs_set_status : List job → Int → Int → Option (List job)
  | [], _, _ => none
  | j :: r, jid, status =>
    if j.jid = jid then some ({ j with status := status } :: r)
    else (jobs_set_status r jid status).map (j :: ·)

/-- Modelled from the spec: `jobs.c` is not part of the sources.  Remove the
job of a process group: its entry is deleted, the others keep their order. -/
def jobs_remove_pgid : List job → Int → List job
  | [], _ => []
  | j :: r, pgid => if j.pgid = pgid then r else j :: jobs_remove_pgid r pgid

/-- Modelled from the spec: `jobs.c` is not part of the sources.  The job
table as an ordered list of jobs. -/
def jobsList : JobsApi (List job) where
  jobs_get_jid := jobs_get_jid
  jobs_get_pgid := jobs_get_pgid
  jobs_get_status := jobs_get_status
  jobs_set_status := jobs_set_status
  jobs_remove_pgid := jobs_remove_pgid
  jobs_get_joblist := fun r => r

/-! ## Vocabulary of the statements -/

/-- The calls issued between a state and a later one. -/
def issued (w w' : World R) : List Call := w'.calls.drop w.calls.length

/-- The lines written between a state and a later one. -/
def emitted (w w' : World R) : List Line := w'.stderr.drop w.stderr.length

/-- Whether a call is a status query. -/
def Call.is_waitpid : Call → Bool
  | .waitpid _ _ => true
  | _ => false

/-- The blocking status query of `wait_on_fg_pgid` for the group `pgid`. -/
def fg_query (pgid : Int) : Call := .waitpid (-pgid) ⟨false, true⟩

/-- The status query of `wait_on_bg_jobs` for the job of group `pgid`. -/
def bg_query (pgid : Int) : Call := .waitpid pgid ⟨true, true⟩

/-- What identifies a job: its job id and its process-group id. -/
def job.key (j : job) : Int × Int := (j.jid, j.pgid)

/-- The value of `params.status` after lines 66-75 ran on the stored status
`status`, `old` being the value before. -/
def fg_exit_status (status old : Int) : Int :=
  if WIFEXITED status then WEXITSTATUS status
  else if WIFSIGNALED status then 128 + WTERMSIG status
  else old

/-- The state in which `wait_on_fg_pgid` enters its loop when the calls before
it succeed. -/
def fg_entered (w : World R) (pgid : Int) : World R :=
  if w.is_interactive then
    { w with calls := w.calls ++ [.kill (-pgid) SIGCONT, .tcgetpgrp STDIN_FILENO,
                                  .tcsetpgrp STDIN_FILENO pgid],
             tty_pgrp := pgid }
  else
    { w with calls := w.calls ++ [.kill (-pgid) SIGCONT, .tcgetpgrp STDIN_FILENO] }

/-- A shell state for examples: nothing logged, `params.status` is 0, and the
calls whose position in the log is listed in `failing` fail. -/
def World.init (registry : List job) (interactive : Bool) (shell_pgid : Int)
    (failing : List Nat) (pending : Int → List WaitRes) : World (List job) :=
  { registry := registry, params_status := 0, is_interactive := interactive,
    tty_pgrp := shell_pgid, stderr := [], calls := [],
    fails := fun k => decide (k ∈ failing), pending := pending }

/-- Example: job 1 (group 100) in the foreground of an interactive shell of
group 50; the group is gone at the first query, and the fifth call of the
log, the `tcsetpgrp` that hands the terminal back, fails. -/
def ex_restore_fails : World (List job) :=
  World.init [⟨1, 100, 0⟩] true 50 [4] (fun p => if p = -100 then [.echild] else [])

/-- The state after a `waitpid(pid, ..., o)` call that took the head of
`pending pid` and left `q`. -/
def World.popped (w : World R) (pid : Int) (o : WaitOptions) (q : List WaitRes) : World R :=
  { w with calls := w.calls ++ [.waitpid pid o],
           pending := fun p => if p = pid then q else w.pending p }

/-- The state with the job table replaced. -/
def World.stored (w : World R) (r : R) : World R := { w with registry := r }

/-- Example: the two-stage pipeline of job 1 (group 100) in the foreground of
an interactive shell of group 50; both stages exit with code 0. -/
def ex_pipeline : World (List job) :=
  World.init [⟨1, 100, 0⟩] true 50 []
    (fun p => if p = -100 then [.changed 0, .changed 0, .echild] else [])

/-- Example: job 1 (group 100) in the foreground, killed by signal 9. -/
def ex_killed : World (List job) :=
  World.init [⟨1, 100, 0⟩] true 50 [] (fun p => if p = -100 then [.changed 9, .echild] else [])

/-- Example: job 1 (group 100) in the foreground; one process exits, then the
group is stopped by signal 20 (status `0x147f`); a later result stays unread. -/
def ex_stopped : World (List job) :=
  World.init [⟨1, 100, 0⟩] true 50 []
    (fun p => if p = -100 then [.changed 0, .changed 0x147f, .echild] else [])

/-- Example: job 1 (group 100) was stopped earlier (stored status `0x147f`)
and its group is gone at the first query; every call succeeds. -/
def ex_gone_stopped : World (List job) :=
  World.init [⟨1, 100, 0x147f⟩] true 50 [] (fun p => if p = -100 then [.echild] else [])

/-- Example: as `ex_gone_stopped`, but the fifth call of the log, the
`tcsetpgrp` that hands the terminal back, fails. -/
def ex_gone_stopped_restore_fails : World (List job) :=
  World.init [⟨1, 100, 0x147f⟩] true 50 [4] (fun p => if p = -100 then [.echild] else [])

/-- Example: a script, not a terminal session: job 1 (group 100) runs in the
foreground of a non-interactive shell, its single process exits with code 0;
every call succeeds. -/
def ex_script : World (List job) :=
  World.init [⟨1, 100, 0⟩] false 50 [] (fun p => if p = -100 then [.changed 0, .echild] else [])

/-- Example: as `ex_script`, but the second call of the log, `tcgetpgrp`,
fails (standard input is not a terminal). -/
def ex_script_no_tty : World (List job) :=
  World.init [⟨1, 100, 0⟩] false 50 [1]
    (fun p => if p = -100 then [.changed 0, .echild] else [])

/-- Example: job 1 is the pipeline of group 1234, polled in the background
and waited for in the foreground. -/
def ex_one_job : World (List job) :=
  World.init [⟨1, 1234, 0⟩] true 50 [] (fun _ => [])

/-- Example: two background jobs, both with a stored clean exit, both groups
without children left. -/
def ex_two_done : World (List job) :=
  World.init [⟨1, 100, 0⟩, ⟨2, 200, 0⟩] true 50 []
    (fun p => if p = 100 then [.echild] else if p = 200 then [.echild] else [])

/-- Example: two background jobs just launched, nothing has happened yet. -/
def ex_bg_idle : World (List job) :=
  World.init [⟨1, 100, 0⟩, ⟨2, 200, 0⟩] true 50 []
    (fun p => if p = 100 then [.nochange, .changed 0, .echild] else [])

/-! ## The system calls -/

theorem kill_fst (w : World R) (pid sig : Int) :
    (kill w pid sig).1 = if w.fails w.calls.length then -1 else 0 := by
  unfold kill; split <;> rfl

theorem kill_snd (w : World R) (pid sig : Int) :
    (kill w pid sig).2 = w.record (.kill pid sig) := by
  unfold kill; split <;> rfl

theorem kill_neg (w : World R) (pid sig : Int) :
    (kill w pid sig).1 < 0 ↔ w.fails w.calls.length = true := by
  rw [kill_fst]; split <;> simp [*]

theorem tcgetpgrp_fst (w : World R) (fd : Int) :
    (tcgetpgrp w fd).1 = if w.fails w.calls.length then -1 else w.tty_pgrp := by
  unfold tcgetpgrp; split <;> rfl

theorem tcgetpgrp_snd (w : World R) (fd : Int) :
    (tcgetpgrp w fd).2 = w.record (.tcgetpgrp fd) := by
  unfold tcgetpgrp; split <;> rfl

theorem tcsetpgrp_fst (w : World R) (fd pgrp : Int) :
    (tcsetpgrp w fd pgrp).1 = if w.fails w.calls.length then -1 else 0 := by
  unfold tcsetpgrp; split <;> rfl

theorem tcsetpgrp_snd (w : World R) (fd pgrp : Int) :
    (tcsetpgrp w fd pgrp).2 =
      if w.fails w.calls.length then w.record (.tcsetpgrp fd pgrp)
      else { w.record (.tcsetpgrp fd pgrp) with tty_pgrp := pgrp } := by
  unfold tcsetpgrp; split <;> rfl

theorem tcsetpgrp_neg (w : World R) (fd pgrp : Int) :
    (tcsetpgrp w fd pgrp).1 < 0 ↔ w.fails w.calls.length = true := by
  rw [tcsetpgrp_fst]; split <;> simp [*]

theorem waitpid_cons (w : World R) (pid : Int) (o : WaitOptions) (r : WaitRes)
    (q : List WaitRes) (h : w.pending pid = r :: q) :
    waitpid w pid o = (some r, w.popped pid o q) := by
  unfold waitpid; rw [h]; rfl

theorem waitpid_nil_nohang (w : World R) (pid : Int) (u : Bool) (h : w.pending pid = []) :
    waitpid w pid ⟨true, u⟩ = (some .nochange, w.record (.waitpid pid ⟨true, u⟩)) := by
  unfold waitpid; rw [h]; rfl

/-- A property of the state that the effects of `waitpid` keep is kept by `waitpid`. -/
theorem waitpid_inv (P : World R → Prop) (pid : Int) (o : WaitOptions)
    (hcall : ∀ w, P w → P (w.record (.waitpid pid o)))
    (hpop : ∀ (w : World R) q, P w → P (w.popped pid o q))
    (w : World R) (hw : P w) : P (waitpid w pid o).2 := by
  unfold waitpid
  split
  · split
    · exact hcall w hw
    · exact hcall w hw
  · exact hpop _ _ hw

/-! ## The foreground loop, for any job table -/

/-- A property of the state that each effect of the loop of `wait_on_fg_pgid`
keeps holds when the loop is left. -/
theorem fg_loop_inv (P : World R → Prop) (api : JobsApi R) (pgid jid : Int)
    (hcall : ∀ w, P w → P (w.record (.waitpid (-pgid) ⟨false, true⟩)))
    (hpop : ∀ (w : World R) q, P w → P (w.popped (-pgid) ⟨false, true⟩ q))
    (hreg : ∀ (w : World R) r, P w → P { w with registry := r })
    (hst : ∀ (w : World R) s, P w → P { w with params_status := s })
    (hout : ∀ (w : World R), P w → P (w.fprintf jid .Stopped)) :
    ∀ (n : Nat) (w : World R), P w → P (fg_loop api pgid jid n w).2 := by
  intro n
  induction n with
  | zero => intro w hw; exact hw
  | succ n ih =>
    intro w hw
    have h1 := waitpid_inv P (-pgid) ⟨false, true⟩ hcall hpop w hw
    unfold fg_loop
    generalize waitpid w (-pgid) ⟨false, true⟩ = res at h1
    rcases res with ⟨_ | r, w1⟩
    · exact h1
    · cases r with
      | changed status =>
        dsimp only
        cases api.jobs_set_status w1.registry jid status with
        | none => exact h1
        | some r =>
          dsimp only
          split
          · exact hout _ (hreg _ _ h1)
          · exact ih _ (hreg _ _ h1)
      | nochange => exact h1
      | echild =>
        dsimp only
        cases api.jobs_get_status w1.registry jid with
        | none => exact h1
        | some status =>
          dsimp only
          apply hreg
          split
          · exact hst _ _ h1
          · split
            · exact hst _ _ h1
            · exact h1
      | error => exact h1

/-- The loop of `wait_on_fg_pgid` leaves the terminal, the mode and the
outcomes of the coming calls as they are. -/
theorem fg_loop_frame (api : JobsApi R) (pgid jid : Int) (n : Nat) (w : World R) :
    (fg_loop api pgid jid n w).2.tty_pgrp = w.tty_pgrp ∧
    (fg_loop api pgid jid n w).2.is_interactive = w.is_interactive ∧
    (fg_loop api pgid jid n w).2.fails = w.fails :=
  fg_loop_inv
    (fun v => v.tty_pgrp = w.tty_pgrp ∧ v.is_interactive = w.is_interactive ∧ v.fails = w.fails)
    api pgid jid (fun _ h => h) (fun _ _ h => h) (fun _ _ h => h) (fun _ _ h => h)
    (fun _ h => h) n w ⟨rfl, rfl, rfl⟩

/-- In interactive mode the last step of `wait_on_fg_pgid` leaves the terminal
with `ushellpgid`, unless its `tcsetpgrp` fails. -/
theorem fg_restore_tty (ushellpgid retval : Int) (w w' : World R) (r : Int)
    (hint : w.is_interactive = true)
    (hret : fg_restore ushellpgid retval w = (some r, w')) :
    w'.tty_pgrp = ushellpgid ∨
      (r = -1 ∧ w'.tty_pgrp = w.tty_pgrp ∧
        w'.calls.getLast? = some (.tcsetpgrp STDIN_FILENO ushellpgid) ∧
        w.fails (w'.calls.length - 1) = true) := by
  unfold fg_restore at hret
  rw [if_pos hint] at hret
  dsimp only at hret
  by_cases hf : w.fails w.calls.length = true
  · rw [if_pos ((tcsetpgrp_neg _ _ _).2 hf), tcsetpgrp_snd, if_pos hf] at hret
    simp only [Prod.mk.injEq, Option.some.injEq] at hret
    right
    obtain ⟨h1, h2⟩ := hret
    subst h2
    simp [World.record, hf, ← h1]
  · rw [if_neg (fun h => hf ((tcsetpgrp_neg _ _ _).1 h)), tcsetpgrp_snd, if_neg hf] at hret
    simp only [Prod.mk.injEq, Option.some.injEq] at hret
    left
    rw [← hret.2]

/-! ## Claims settled for any job table -/

/-- The two guards of `wait_on_fg_pgid` (lines 21-23): for a negative `pgid`,
or when `jobs_get_jid` returns a negative value, the function returns `-1`
and leaves the whole state as it was. -/
theorem fg_guards (api : JobsApi R) (pgid : Int) (w : World R)
    (h : pgid < 0 ∨ api.jobs_get_jid w.registry pgid < 0) :
    wait_on_fg_pgid api pgid w = (some (-1), w) := by
  unfold wait_on_fg_pgid
  rcases h with h | h
  · simp [h]
  · by_cases h0 : pgid < 0
    · simp [h0]
    · simp [h0, h]

/-- C2 (as amended): in interactive mode, whenever `wait_on_fg_pgid` returns,
with whatever outcomes of its `kill`, job-table, `waitpid` and terminal
calls, the terminal's foreground group is the one it had on entry, except
when the last call of the function, the `tcsetpgrp` that hands the terminal
back, fails: then the function returns `-1` and the terminal is still with
the job's group `pgid`. -/
theorem fg_terminal_back_unless_restore_fails (api : JobsApi R) (pgid : Int)
    (w w' : World R) (r : Int)
    (hint : w.is_interactive = true)
    (hret : wait_on_fg_pgid api pgid w = (some r, w')) :
    w'.tty_pgrp = w.tty_pgrp ∨
      (r = -1 ∧ w'.tty_pgrp = pgid ∧
        w'.calls.getLast? = some (.tcsetpgrp STDIN_FILENO w.tty_pgrp) ∧
        w.fails (w'.calls.length - 1) = true) := by
  unfold wait_on_fg_pgid at hret
  dsimp only at hret
  by_cases h1 : pgid < 0
  · rw [if_pos h1] at hret
    simp only [Prod.mk.injEq] at hret; left; rw [← hret.2]
  rw [if_neg h1] at hret
  by_cases h2 : api.jobs_get_jid w.registry pgid < 0
  · rw [if_pos h2] at hret
    simp only [Prod.mk.injEq] at hret; left; rw [← hret.2]
  rw [if_neg h2] at hret
  by_cases h3 : (kill w (-pgid) SIGCONT).1 < 0
  · rw [if_pos h3] at hret
    simp only [Prod.mk.injEq] at hret; left; rw [← hret.2, kill_snd]; rfl
  rw [if_neg h3] at hret
  by_cases h4 : (tcgetpgrp (kill w (-pgid) SIGCONT).2 STDIN_FILENO).1 < 0
  · rw [if_pos h4] at hret
    simp only [Prod.mk.injEq] at hret; left; rw [← hret.2, tcgetpgrp_snd, kill_snd]; rfl
  rw [if_neg h4] at hret
  have hu : (tcgetpgrp (kill w (-pgid) SIGCONT).2 STDIN_FILENO).1 = w.tty_pgrp := by
    rw [tcgetpgrp_fst] at h4 ⊢
    split
    · rename_i hf; rw [if_pos hf] at h4; exact absurd (by decide) h4
    · rw [kill_snd]; rfl
  rw [hu] at hret
  have hi : (tcgetpgrp (kill w (-pgid) SIGCONT).2 STDIN_FILENO).2.is_interactive = true := by
    rw [tcgetpgrp_snd, kill_snd]; exact hint
  have ht : (tcgetpgrp (kill w (-pgid) SIGCONT).2 STDIN_FILENO).2.tty_pgrp = w.tty_pgrp := by
    rw [tcgetpgrp_snd, kill_snd]; rfl
  have hfl : (tcgetpgrp (kill w (-pgid) SIGCONT).2 STDIN_FILENO).2.fails = w.fails := by
    rw [tcgetpgrp_snd, kill_snd]; rfl
  generalize (tcgetpgrp (kill w (-pgid) SIGCONT).2 STDIN_FILENO).2 = w2 at hret hi ht hfl
  rw [if_pos hi] at hret
  by_cases h5 : (tcsetpgrp w2 STDIN_FILENO pgid).1 < 0
  · rw [if_pos h5] at hret
    simp only [Prod.mk.injEq] at hret; left
    rw [← hret.2, tcsetpgrp_snd, if_pos ((tcsetpgrp_neg _ _ _).1 h5)]
    exact ht
  rw [if_neg h5] at hret
  have h5f : ¬ w2.fails w2.calls.length = true := fun h => h5 ((tcsetpgrp_neg _ _ _).2 h)
  have h3i : (tcsetpgrp w2 STDIN_FILENO pgid).2.is_interactive = true := by
    rw [tcsetpgrp_snd, if_neg h5f]; exact hi
  have h3f : (tcsetpgrp w2 STDIN_FILENO pgid).2.fails = w.fails := by
    rw [tcsetpgrp_snd, if_neg h5f]; exact hfl
  have h3t : (tcsetpgrp w2 STDIN_FILENO pgid).2.tty_pgrp = pgid := by
    rw [tcsetpgrp_snd, if_neg h5f]
  generalize (tcsetpgrp w2 STDIN_FILENO pgid).2 = w3 at hret h3i h3f h3t
  obtain ⟨l1, l2, l3⟩ := fg_loop_frame api pgid (api.jobs_get_jid w.registry pgid)
    ((w3.pending (-pgid)).length + 1) w3
  generalize fg_loop api pgid (api.jobs_get_jid w.registry pgid)
    ((w3.pending (-pgid)).length + 1) w3 = res at hret l1 l2 l3
  rcases res with ⟨_ | retval, w4⟩
  · simp at hret
  · dsimp only at hret l1 l2 l3
    rcases fg_restore_tty _ _ _ _ _ (l2.trans h3i) hret with h | ⟨ha, hb, hc, hd⟩
    · left; exact h
    · right
      refine ⟨ha, hb.trans (l1.trans h3t), hc, ?_⟩
      rw [← h3f, ← l3]; exact hd

/-! ## The job table kept as a list -/

theorem jobs_set_status_key (r r' : List job) (jid s : Int)
    (h : jobs_set_status r jid s = some r') :
    r'.map job.key = r.map job.key ∧ jobs_get_status r' jid = some s := by
  induction r generalizing r' with
  | nil => simp [jobs_set_status] at h
  | cons j r ih =>
    unfold jobs_set_status at h
    by_cases hj : j.jid = jid
    · rw [if_pos hj] at h
      simp only [Option.some.injEq] at h
      subst h
      simp [job.key, jobs_get_status, hj]
    · rw [if_neg hj] at h
      cases hr : jobs_set_status r jid s with
      | none => rw [hr] at h; simp at h
      | some r1 =>
        rw [hr] at h
        simp only [Option.map_some', Option.some.injEq] at h
        subst h
        obtain ⟨a, b⟩ := ih r1 hr
        simp [jobs_get_status, hj, a, b]

theorem jobs_set_status_of_get (r : List job) (jid s0 s : Int)
    (h : jobs_get_status r jid = some s0) :
    ∃ r', jobs_set_status r jid s = some r' := by
  induction r with
  | nil => simp [jobs_get_status] at h
  | cons j r ih =>
    unfold jobs_get_status at h
    unfold jobs_set_status
    by_cases hj : j.jid = jid
    · rw [if_pos hj]; exact ⟨_, rfl⟩
    · rw [if_neg hj] at h ⊢
      obtain ⟨r', hr⟩ := ih h
      rw [hr]; exact ⟨_, rfl⟩

theorem jobs_get_jid_key (r r' : List job) (pgid : Int)
    (h : r'.map job.key = r.map job.key) : jobs_get_jid r' pgid = jobs_get_jid r pgid := by
  induction r generalizing r' with
  | nil => 
    simp at h; subst h; rfl
  | cons j r ih =>
    cases r' with
    | nil => simp at h
    | cons j' r' =>
      simp only [List.map_cons, List.cons.injEq] at h
      obtain ⟨hk, ht⟩ := h
      simp only [job.key, Prod.mk.injEq] at hk
      unfold jobs_get_jid
      rw [hk.1, hk.2, ih r' ht]

theorem jobs_get_jid_mem (r : List job) (pgid : Int) (h : 0 ≤ jobs_get_jid r pgid) :
    (jobs_get_jid r pgid, pgid) ∈ r.map job.key := by
  induction r with
  | nil => simp [jobs_get_jid] at h
  | cons j r ih =>
    unfold jobs_get_jid at h ⊢
    by_cases hj : j.pgid = pgid
    · rw [if_pos hj]; simp [job.key, hj]
    · rw [if_neg hj] at h ⊢
      exact List.mem_cons_of_mem _ (ih h)

theorem jobs_get_status_of_key (r : List job) (jid pgid : Int)
    (h : (jid, pgid) ∈ r.map job.key) : ∃ s, jobs_get_status r jid = some s := by
  induction r with
  | nil => simp at h
  | cons j r ih =>
    unfold jobs_get_status
    by_cases hj : j.jid = jid
    · rw [if_pos hj]; exact ⟨_, rfl⟩
    · rw [if_neg hj]
      simp only [List.map_cons, List.mem_cons] at h
      rcases h with h | h
      · simp [job.key] at h; exact absurd h.1.symm hj
      · exact ih h

theorem jobs_remove_pgid_gone (r : List job) (pgid : Int)
    (h : (r.map job.pgid).Nodup) : ∀ j ∈ jobs_remove_pgid r pgid, j.pgid ≠ pgid := by
  induction r with
  | nil => simp [jobs_remove_pgid]
  | cons j r ih =>
    simp only [List.map_cons, List.nodup_cons] at h
    unfold jobs_remove_pgid
    by_cases hj : j.pgid = pgid
    · rw [if_pos hj]
      intro x hx hxp
      apply h.1
      rw [hj, ← hxp]
      exact List.mem_map_of_mem _ hx
    · rw [if_neg hj]
      intro x hx
      simp only [List.mem_cons] at hx
      rcases hx with hx | hx
      · rw [hx]; exact hj
      · exact ih h.2 x hx

theorem map_pgid_of_key (r r' : List job) (h : r'.map job.key = r.map job.key) :
    r'.map job.pgid = r.map job.pgid := by
  have := congrArg (List.map Prod.snd) h
  simpa [List.map_map, Function.comp_def, job.key] using this

theorem drop_of_getElem? (l : List job) (i : Nat) (j : job) (h : l[i]? = some j) :
    l.drop i = j :: l.drop (i + 1) := by
  obtain ⟨hi, hj⟩ := List.getElem?_eq_some.1 h
  rw [List.drop_eq_getElem_cons hi, hj]

theorem drop_of_getElem?_none (l : List job) (i : Nat) (h : l[i]? = none) :
    l.drop i = [] := by
  rw [List.getElem?_eq_none_iff] at h
  exact List.drop_eq_nil_of_le h

theorem jobs_get_jid_not_mem (r : List job) (pgid : Int)
    (h : pgid ∉ r.map job.pgid) : jobs_get_jid r pgid = -1 := by
  induction r with
  | nil => rfl
  | cons j r ih =>
    simp only [List.map_cons, List.mem_cons, not_or] at h
    unfold jobs_get_jid
    rw [if_neg (fun e => h.1 e.symm)]
    exact ih h.2

/-! ## The foreground loop on given query results -/

theorem fg_loop_changed (api : JobsApi R) (pgid jid : Int) (n : Nat) (w : World R)
    (s : Int) (q : List WaitRes) (r : R)
    (hq : w.pending (-pgid) = .changed s :: q)
    (hr : api.jobs_set_status w.registry jid s = some r)
    (hs : WIFSTOPPED s = false) :
    fg_loop api pgid jid (n + 1) w =
      fg_loop api pgid jid n ((w.popped (-pgid) ⟨false, true⟩ q).stored r) := by
  have hr' : api.jobs_set_status (w.popped (-pgid) ⟨false, true⟩ q).registry jid s = some r := hr
  rw [fg_loop, waitpid_cons w (-pgid) _ _ _ hq]
  simp only [hr', hs]
  rfl

theorem fg_loop_stopped (api : JobsApi R) (pgid jid : Int) (n : Nat) (w : World R)
    (s : Int) (q : List WaitRes) (r : R)
    (hq : w.pending (-pgid) = .changed s :: q)
    (hr : api.jobs_set_status w.registry jid s = some r)
    (hs : WIFSTOPPED s = true) :
    fg_loop api pgid jid (n + 1) w =
      (some 0, ((w.popped (-pgid) ⟨false, true⟩ q).stored r).fprintf jid .Stopped) := by
  have hr' : api.jobs_set_status (w.popped (-pgid) ⟨false, true⟩ q).registry jid s = some r := hr
  rw [fg_loop, waitpid_cons w (-pgid) _ _ _ hq]
  simp only [hr', hs]
  rfl

theorem fg_loop_echild (api : JobsApi R) (pgid jid : Int) (n : Nat) (w : World R)
    (st : Int) (q : List WaitRes)
    (hq : w.pending (-pgid) = .echild :: q)
    (hr : api.jobs_get_status w.registry jid = some st) :
    fg_loop api pgid jid (n + 1) w =
      (some 0, { (w.popped (-pgid) ⟨false, true⟩ q).stored
                   (api.jobs_remove_pgid w.registry pgid) with
                 params_status := fg_exit_status st w.params_status }) := by
  have hr' : api.jobs_get_status (w.popped (-pgid) ⟨false, true⟩ q).registry jid = some st := hr
  rw [fg_loop, waitpid_cons w (-pgid) _ _ _ hq]
  simp only [hr']
  unfold fg_exit_status
  split_ifs <;> rfl

theorem fg_loop_gone (pgid jid : Int) (rest : List WaitRes) :
    ∀ (obs : List Int) (n : Nat) (v : World (List job)) (st0 : Int),
    v.pending (-pgid) = obs.map .changed ++ .echild :: rest →
    (∀ s ∈ obs, WIFSTOPPED s = false) →
    jobs_get_status v.registry jid = some st0 →
    obs.length < n →
    ∃ r', r'.map job.key = v.registry.map job.key ∧
      (fg_loop jobsList pgid jid n v).1 = some 0 ∧
      (fg_loop jobsList pgid jid n v).2.registry = jobs_remove_pgid r' pgid ∧
      (fg_loop jobsList pgid jid n v).2.params_status =
        fg_exit_status (obs.getLast?.getD st0) v.params_status ∧
      (fg_loop jobsList pgid jid n v).2.calls =
        v.calls ++ List.replicate (obs.length + 1) (fg_query pgid) ∧
      (fg_loop jobsList pgid jid n v).2.stderr = v.stderr := by
  intro obs
  induction obs with
  | nil =>
    intro n v st0 hq _ hst hn
    obtain ⟨m, rfl⟩ : ∃ m, n = m + 1 := ⟨n - 1, by omega⟩
    rw [fg_loop_echild jobsList pgid jid m v st0 rest hq hst]
    exact ⟨v.registry, rfl, rfl, rfl, rfl, rfl, rfl⟩
  | cons s obs ih =>
    intro n v st0 hq hns hst hn
    obtain ⟨m, rfl⟩ : ∃ m, n = m + 1 := ⟨n - 1, by simp at hn; omega⟩
    obtain ⟨r1, hr1⟩ := jobs_set_status_of_get v.registry jid st0 s hst
    obtain ⟨hk1, hg1⟩ := jobs_set_status_key _ _ _ _ hr1
    have hs : WIFSTOPPED s = false := hns s (List.mem_cons_self _ _)
    have hq' : v.pending (-pgid) =
        .changed s :: (obs.map .changed ++ .echild :: rest) := by rw [hq]; rfl
    rw [fg_loop_changed jobsList pgid jid m v s
      (obs.map .changed ++ .echild :: rest) r1 hq' hr1 hs]
    obtain ⟨r', hk, h1, h2, h3, h4, h5⟩ := ih m
      ((v.popped (-pgid) ⟨false, true⟩ (obs.map .changed ++ .echild :: rest)).stored r1) s
      (by simp [World.popped, World.stored])
      (fun x hx => hns x (List.mem_cons_of_mem _ hx)) hg1
      (by simp at hn; omega)
    refine ⟨r', hk.trans hk1, h1, h2, ?_, ?_, h5⟩
    · rw [h3, List.getLast?_cons]; rfl
    · rw [h4]; simp [World.popped, World.stored, List.replicate_succ, fg_query]

theorem fg_loop_stop (pgid jid : Int) (st : Int) (rest : List WaitRes)
    (hst : WIFSTOPPED st = true) :
    ∀ (obs : List Int) (n : Nat) (v : World (List job)) (st0 : Int),
    v.pending (-pgid) = obs.map .changed ++ .changed st :: rest →
    (∀ s ∈ obs, WIFSTOPPED s = false) →
    jobs_get_status v.registry jid = some st0 →
    obs.length < n →
    ∃ r', r'.map job.key = v.registry.map job.key ∧ jobs_get_status r' jid = some st ∧
      (fg_loop jobsList pgid jid n v).1 = some 0 ∧
      (fg_loop jobsList pgid jid n v).2.registry = r' ∧
      (fg_loop jobsList pgid jid n v).2.params_status = v.params_status ∧
      (fg_loop jobsList pgid jid n v).2.calls =
        v.calls ++ List.replicate (obs.length + 1) (fg_query pgid) ∧
      (fg_loop jobsList pgid jid n v).2.stderr = v.stderr ++ [⟨jid, .Stopped⟩] ∧
      (fg_loop jobsList pgid jid n v).2.pending (-pgid) = rest := by
  intro obs
  induction obs with
  | nil =>
    intro n v st0 hq _ hg hn
    obtain ⟨m, rfl⟩ : ∃ m, n = m + 1 := ⟨n - 1, by omega⟩
    obtain ⟨r1, hr1⟩ := jobs_set_status_of_get v.registry jid st0 st hg
    obtain ⟨hk1, hg1⟩ := jobs_set_status_key _ _ _ _ hr1
    rw [fg_loop_stopped jobsList pgid jid m v st rest r1 hq hr1 hst]
    exact ⟨r1, hk1, hg1, rfl, rfl, rfl, rfl, rfl, by simp [World.fprintf, World.stored, World.popped]⟩
  | cons s obs ih =>
    intro n v st0 hq hns hg hn
    obtain ⟨m, rfl⟩ : ∃ m, n = m + 1 := ⟨n - 1, by simp at hn; omega⟩
    obtain ⟨r1, hr1⟩ := jobs_set_status_of_get v.registry jid st0 s hg
    obtain ⟨hk1, hg1⟩ := jobs_set_status_key _ _ _ _ hr1
    have hs : WIFSTOPPED s = false := hns s (List.mem_cons_self _ _)
    have hq' : v.pending (-pgid) =
        .changed s :: (obs.map .changed ++ .changed st :: rest) := by rw [hq]; rfl
    rw [fg_loop_changed jobsList pgid jid m v s
      (obs.map .changed ++ .changed st :: rest) r1 hq' hr1 hs]
    obtain ⟨r', hk, hg', h1, h2, h3, h4, h5, h6⟩ := ih m
      ((v.popped (-pgid) ⟨false, true⟩ (obs.map .changed ++ .changed st :: rest)).stored r1) s
      (by simp [World.popped, World.stored])
      (fun x hx => hns x (List.mem_cons_of_mem _ hx)) hg1
      (by simp at hn; omega)
    refine ⟨r', hk.trans hk1, hg', h1, h2, h3, ?_, h5, h6⟩
    rw [h4]; simp [World.popped, World.stored, List.replicate_succ, fg_query]

/-- When the calls before the loop succeed, `wait_on_fg_pgid` is its loop
followed by the hand-back of the terminal. -/
theorem fg_enter (api : JobsApi R) (pgid : Int) (w : World R)
    (h0 : 0 ≤ pgid) (hj : 0 ≤ api.jobs_get_jid w.registry pgid) (ht : 0 ≤ w.tty_pgrp)
    (hf : ∀ k < w.calls.length + 3, w.fails k = false) :
    wait_on_fg_pgid api pgid w =
      match fg_loop api pgid (api.jobs_get_jid w.registry pgid)
          ((w.pending (-pgid)).length + 1) (fg_entered w pgid) with
      | (none, w4) => (none, w4)
      | (some retval, w4) => fg_restore w.tty_pgrp retval w4 := by
  have hf0 := hf w.calls.length (by omega)
  have hf1 := hf (w.calls.length + 1) (by omega)
  have hf2 := hf (w.calls.length + 2) (by omega)
  unfold wait_on_fg_pgid fg_entered
  simp only [not_lt.2 h0, not_lt.2 hj, if_false, kill_fst, kill_snd, tcgetpgrp_fst,
    tcgetpgrp_snd, World.record, hf0, hf1, List.length_append, List.length_singleton,
    Bool.false_eq_true, lt_self_iff_false, not_lt.2 ht]
  by_cases hi : w.is_interactive = true
  · simp [hi, tcsetpgrp_fst, tcsetpgrp_snd, World.record, hf2]
  · simp [hi]

theorem fg_restore_ok (u retval : Int) (w : World R)
    (hf : w.is_interactive = true → w.fails w.calls.length = false) :
    fg_restore u retval w =
      (some retval, if w.is_interactive then
          { w with calls := w.calls ++ [.tcsetpgrp STDIN_FILENO u], tty_pgrp := u }
        else w) := by
  unfold fg_restore
  by_cases hi : w.is_interactive = true
  · simp [hi, tcsetpgrp_fst, tcsetpgrp_snd, hf hi, World.record]
  · simp [hi]

theorem fg_restore_failed (u retval : Int) (w : World R)
    (hi : w.is_interactive = true) (hf : w.fails w.calls.length = true) :
    fg_restore u retval w = (some (-1), w.record (.tcsetpgrp STDIN_FILENO u)) := by
  unfold fg_restore
  simp [tcsetpgrp_fst, tcsetpgrp_snd, hf, hi]

theorem not_stopped_of_terminated (s : Int)
    (h : WIFEXITED s = true ∨ WIFSIGNALED s = true) : WIFSTOPPED s = false := by
  unfold WIFEXITED WIFSIGNALED WTERMSIG at h
  unfold WIFSTOPPED
  simp only [beq_iff_eq, decide_eq_true_eq] at h
  simp only [beq_eq_false_iff_ne, ne_eq]
  intro h7
  rcases h with h | h
  · omega
  · have : s % 128 = 127 := by omega
    rw [this] at h
    simp at h

theorem exited_status (c : Int) (h0 : 0 ≤ c) (h1 : c ≤ 255) :
    WIFEXITED (256 * c) = true ∧ WEXITSTATUS (256 * c) = c := by
  unfold WIFEXITED WEXITSTATUS WTERMSIG
  simp only [beq_iff_eq]
  constructor <;> omega

theorem signaled_status (s : Int) (h0 : 1 ≤ s) (h1 : s ≤ 126) :
    WIFEXITED s = false ∧ WIFSIGNALED s = true ∧ WTERMSIG s = s := by
  unfold WIFEXITED WIFSIGNALED WTERMSIG
  have : s % 128 = s := by omega
  simp only [this, beq_eq_false_iff_ne, ne_eq, decide_eq_true_eq]
  refine ⟨by omega, ?_, trivial⟩
  have h2 : ¬ (128 ≤ s + 1) := by omega
  simp only [h2, if_false]
  omega

theorem fg_entered_frame (w : World R) (pgid : Int) :
    (fg_entered w pgid).registry = w.registry ∧
    (fg_entered w pgid).pending = w.pending ∧
    (fg_entered w pgid).params_status = w.params_status ∧
    (fg_entered w pgid).stderr = w.stderr ∧
    (fg_entered w pgid).is_interactive = w.is_interactive ∧
    (fg_entered w pgid).fails = w.fails ∧
    (fg_entered w pgid).calls = w.calls ++ [.kill (-pgid) SIGCONT, .tcgetpgrp STDIN_FILENO]
      ++ (if w.is_interactive then [.tcsetpgrp STDIN_FILENO pgid] else []) := by
  unfold fg_entered
  by_cases hi : w.is_interactive = true
  · simp [hi]
  · simp [hi]

/-- How `wait_on_fg_pgid` ends when its loop is left through `out:` in state
`w4`: with `0`, or with `-1` when the hand-back of the terminal fails. -/
theorem fg_finish (api : JobsApi R) (pgid : Int) (w w4 : World R) (k : Nat)
    (h0 : 0 ≤ pgid) (hj : 0 ≤ api.jobs_get_jid w.registry pgid) (ht : 0 ≤ w.tty_pgrp)
    (hf : ∀ k < w.calls.length + 3, w.fails k = false)
    (hloop : fg_loop api pgid (api.jobs_get_jid w.registry pgid)
      ((w.pending (-pgid)).length + 1) (fg_entered w pgid) = (some 0, w4))
    (hcalls : w4.calls = (fg_entered w pgid).calls ++ List.replicate k (fg_query pgid)) :
    ∃ w', wait_on_fg_pgid api pgid w =
        (if w.is_interactive && w.fails (w.calls.length + k + 3) then some (-1) else some 0, w') ∧
      w'.registry = w4.registry ∧ w'.params_status = w4.params_status ∧
      w'.stderr = w4.stderr ∧ w'.pending = w4.pending ∧
      (issued w w').filter Call.is_waitpid = List.replicate k (fg_query pgid) ∧
      (w.fails (w.calls.length + k + 3) = false → w'.tty_pgrp = w.tty_pgrp) := by
  obtain ⟨l1, l2, l3⟩ := fg_loop_frame api pgid (api.jobs_get_jid w.registry pgid)
    ((w.pending (-pgid)).length + 1) (fg_entered w pgid)
  rw [hloop] at l1 l2 l3
  dsimp only at l1 l2 l3
  obtain ⟨e1, e2, e3, e4, e5, e6, e7⟩ := fg_entered_frame w pgid
  rw [fg_enter api pgid w h0 hj ht hf, hloop]
  dsimp only
  have hlen : w4.calls.length = w.calls.length + k + 3 ∨ w.is_interactive = false := by
    by_cases hi : w.is_interactive = true
    · left; rw [hcalls, e7, if_pos hi]; simp; omega
    · right; simpa using hi
  have hfq : (List.replicate k (fg_query pgid)).filter Call.is_waitpid =
      List.replicate k (fg_query pgid) := by
    rw [List.filter_replicate]; simp [fg_query, Call.is_waitpid]
  by_cases hi : w.is_interactive = true
  · have hlen' : w4.calls.length = w.calls.length + k + 3 := by
      rcases hlen with h | h
      · exact h
      · rw [hi] at h; exact absurd h (by decide)
    have hi4 : w4.is_interactive = true := l2.trans (e5.trans hi)
    cases hfl : w.fails (w.calls.length + k + 3)
    · rw [fg_restore_ok _ _ _ (fun _ => by rw [l3, e6, hlen']; exact hfl), if_pos hi4]
      refine ⟨{ w4 with calls := w4.calls ++ [.tcsetpgrp STDIN_FILENO w.tty_pgrp],
                        tty_pgrp := w.tty_pgrp }, by simp [hi], rfl, rfl, rfl, rfl, ?_,
              fun _ => rfl⟩
      unfold issued
      simp only [hcalls, e7, if_pos hi, List.append_assoc, List.drop_left, List.filter_append,
        hfq]
      simp [Call.is_waitpid]
    · rw [fg_restore_failed _ _ _ hi4 (by rw [l3, e6, hlen']; exact hfl)]
      refine ⟨w4.record (.tcsetpgrp STDIN_FILENO w.tty_pgrp), by simp [hi], rfl, rfl, rfl, rfl,
              ?_, fun h => absurd h (by simp)⟩
      unfold issued
      simp only [World.record, hcalls, e7, if_pos hi, List.append_assoc, List.drop_left,
        List.filter_append, hfq]
      simp [Call.is_waitpid]
  · have hi' : w4.is_interactive = false := by
      rw [l2, e5]; simpa using hi
    rw [fg_restore_ok _ _ _ (fun h => by rw [hi'] at h; exact absurd h (by decide)), hi']
    refine ⟨w4, by simp [hi], rfl, rfl, rfl, rfl, ?_, fun _ => ?_⟩
    · unfold issued
      simp only [hcalls, e7, if_neg hi, List.append_assoc,
        List.drop_left, List.filter_append, hfq]
      simp [Call.is_waitpid]
    · rw [l1]; unfold fg_entered; simp [hi]

/-! ## Claims about `wait_on_fg_pgid` on the list job table -/

/-- C1: let `pgid > 0` be registered, let every `kill` and terminal call
succeed, and let the blocking queries report the `N = obs.length + 1`
terminations `obs ++ [last]` (each a clean exit or a death by signal, hence
none a stop) and then `ECHILD`.  Then the call returns `0`, it issued exactly
`N + 1` status queries, all of them `waitpid(-pgid, ..., WUNTRACED)`, no job
of group `pgid` is left in the job table, and `params.status` depends on
`last` alone: `WEXITSTATUS` of it for a clean exit (so `c` for the status
`256 * c` of an exit with code `c` in 0..255), and `128 + WTERMSIG` of it
for a death by signal (so `128 + s` for the status `s` of signal `s`). -/
theorem fg_pipeline_exit_status (pgid : Int) (w : World (List job)) (obs : List Int)
    (last : Int) (rest : List WaitRes)
    (hpgid : 0 < pgid)
    (hreg : 0 ≤ jobs_get_jid w.registry pgid)
    (huniq : (w.registry.map job.pgid).Nodup)
    (htty : 0 ≤ w.tty_pgrp)
    (hok : ∀ k, w.fails k = false)
    (hq : w.pending (-pgid) = (obs ++ [last]).map .changed ++ .echild :: rest)
    (hterm : ∀ s ∈ obs ++ [last], WIFEXITED s = true ∨ WIFSIGNALED s = true) :
    ∃ w', wait_on_fg_pgid jobsList pgid w = (some 0, w') ∧
      (issued w w').filter Call.is_waitpid = List.replicate (obs.length + 2) (fg_query pgid) ∧
      (∀ j ∈ w'.registry, j.pgid ≠ pgid) ∧
      w'.params_status = (if WIFEXITED last then WEXITSTATUS last else 128 + WTERMSIG last) ∧
      (∀ c : Int, 0 ≤ c → c ≤ 255 → last = 256 * c → w'.params_status = c) ∧
      (∀ s : Int, 1 ≤ s → s ≤ 126 → last = s → w'.params_status = 128 + s) ∧
      w'.tty_pgrp = w.tty_pgrp := by
  obtain ⟨e1, e2, e3, e4, e5, e6, e7⟩ := fg_entered_frame w pgid
  obtain ⟨s0, hs0⟩ := jobs_get_status_of_key w.registry _ pgid (jobs_get_jid_mem _ _ hreg)
  obtain ⟨r', hk, h1, h2, h3, h4, h5⟩ := fg_loop_gone pgid (jobs_get_jid w.registry pgid) rest
    (obs ++ [last]) ((w.pending (-pgid)).length + 1) (fg_entered w pgid) s0
    (by rw [e2]; exact hq)
    (fun s hs => not_stopped_of_terminated s (hterm s hs))
    (by rw [e1]; exact hs0)
    (by rw [hq]; simp)
  obtain ⟨w', hw, f1, f2, f3, f4, f5, f6⟩ := fg_finish jobsList pgid w _ (obs.length + 2)
    (le_of_lt hpgid) hreg htty (fun k _ => hok k) (Prod.ext h1 rfl)
    (h4.trans (by simp))
  rw [hok] at hw f6
  simp only [Bool.and_false, Bool.false_eq_true, if_false] at hw
  have hst : w'.params_status = if WIFEXITED last then WEXITSTATUS last
      else 128 + WTERMSIG last := by
    rw [f2.trans h3, e3]
    simp only [List.getLast?_append, List.getLast?_singleton, Option.or_some, Option.getD_some]
    unfold fg_exit_status
    rcases hterm last (by simp) with h | h
    · simp [h]
    · simp [h]
  refine ⟨w', hw, f5, ?_, hst, ?_, ?_, f6 rfl⟩
  · rw [f1.trans h2]
    apply jobs_remove_pgid_gone
    rw [map_pgid_of_key _ _ (hk.trans (by rw [e1]))]
    exact huniq
  · intro c c0 c1 hc
    obtain ⟨a, b⟩ := exited_status c c0 c1
    rw [hst, hc, if_pos a, b]
  · intro s s0 s1 hs
    obtain ⟨a, b, c⟩ := signaled_status s s0 s1
    rw [hst, hs, a, c]; simp

/-- C1, instances: a two-stage pipeline whose stages both exit with code 0
gives 0, a job killed by signal 9 gives 137; both jobs are removed. -/
theorem fg_pipeline_exit_status_witness :
    (∃ w', wait_on_fg_pgid jobsList 100 ex_pipeline = (some 0, w') ∧
      (issued ex_pipeline w').filter Call.is_waitpid = List.replicate 3 (fg_query 100) ∧
      (∀ j ∈ w'.registry, j.pgid ≠ 100) ∧ w'.params_status = 0) ∧
    (∃ w', wait_on_fg_pgid jobsList 100 ex_killed = (some 0, w') ∧
      (∀ j ∈ w'.registry, j.pgid ≠ 100) ∧ w'.params_status = 137) := by
  constructor
  · obtain ⟨w', h1, h2, h3, _, h5, _, _⟩ := fg_pipeline_exit_status 100 ex_pipeline [0] 0 []
      (by decide) (by decide) (by decide) (by decide) (fun _ => rfl) rfl (by decide)
    exact ⟨w', h1, h2, h3, h5 0 (by decide) (by decide) (by decide)⟩
  · obtain ⟨w', h1, _, h3, _, _, h6, _⟩ := fg_pipeline_exit_status 100 ex_killed [] 9 []
      (by decide) (by decide) (by decide) (by decide) (fun _ => rfl) rfl (by decide)
    exact ⟨w', h1, h3, h6 9 (by decide) (by decide) (by decide)⟩

/-- C3: let `pgid` be registered, let every `kill` and terminal call succeed,
and let the blocking queries report `k = obs.length` changes that are not
stops and then the stop `st`.  Then the call returns `0`; it issued exactly
`k + 1` status queries, the results after the stop staying unread; the one
line written is `[<jid>] Stopped`; the job table still maps `pgid` to the same
`jid`, whose stored status is `st`; `params.status` is unchanged; and the
terminal's foreground group is again the one captured on entry. -/
theorem fg_stopped_job_stays (pgid : Int) (w : World (List job)) (obs : List Int)
    (st : Int) (rest : List WaitRes)
    (hpgid : 0 ≤ pgid)
    (hreg : 0 ≤ jobs_get_jid w.registry pgid)
    (htty : 0 ≤ w.tty_pgrp)
    (hok : ∀ k, w.fails k = false)
    (hq : w.pending (-pgid) = obs.map .changed ++ .changed st :: rest)
    (hobs : ∀ s ∈ obs, WIFSTOPPED s = false)
    (hst : WIFSTOPPED st = true) :
    ∃ w', wait_on_fg_pgid jobsList pgid w = (some 0, w') ∧
      (issued w w').filter Call.is_waitpid = List.replicate (obs.length + 1) (fg_query pgid) ∧
      w'.pending (-pgid) = rest ∧
      emitted w w' = [⟨jobs_get_jid w.registry pgid, .Stopped⟩] ∧
      jobs_get_jid w'.registry pgid = jobs_get_jid w.registry pgid ∧
      jobs_get_status w'.registry (jobs_get_jid w.registry pgid) = some st ∧
      w'.params_status = w.params_status ∧
      w'.tty_pgrp = w.tty_pgrp := by
  obtain ⟨e1, e2, e3, e4, e5, e6, e7⟩ := fg_entered_frame w pgid
  obtain ⟨s0, hs0⟩ := jobs_get_status_of_key w.registry _ pgid (jobs_get_jid_mem _ _ hreg)
  obtain ⟨r', hk, hg, h1, h2, h3, h4, h5, h6⟩ := fg_loop_stop pgid
    (jobs_get_jid w.registry pgid) st rest hst
    obs ((w.pending (-pgid)).length + 1) (fg_entered w pgid) s0
    (by rw [e2]; exact hq) hobs (by rw [e1]; exact hs0) (by rw [hq]; simp; omega)
  obtain ⟨w', hw, f1, f2, f3, f4, f5, f6⟩ := fg_finish jobsList pgid w _ (obs.length + 1)
    hpgid hreg htty (fun k _ => hok k) (Prod.ext h1 rfl) h4
  rw [hok] at hw f6
  simp only [Bool.and_false, Bool.false_eq_true, if_false] at hw
  rw [e1] at hk
  refine ⟨w', hw, f5, ?_, ?_, ?_, ?_, ?_, f6 rfl⟩
  · rw [f4]; exact h6
  · unfold emitted
    rw [f3.trans h5, e4, List.drop_left]
  · rw [f1.trans h2]; exact jobs_get_jid_key _ _ _ hk
  · rw [f1.trans h2]; exact hg
  · rw [f2.trans h3, e3]

/-- C3, instance: job 1 of group 100 is stopped after one of its processes
exited. -/
theorem fg_stopped_job_stays_witness :
    WIFSTOPPED 0x147f = true ∧
    Line.text ⟨1, .Stopped⟩ = "[1] Stopped\n" ∧
    ∃ w', wait_on_fg_pgid jobsList 100 ex_stopped = (some 0, w') ∧
      (issued ex_stopped w').filter Call.is_waitpid = List.replicate 2 (fg_query 100) ∧
      w'.pending (-100) = [.echild] ∧
      emitted ex_stopped w' = [⟨1, .Stopped⟩] ∧
      jobs_get_jid w'.registry 100 = 1 ∧
      jobs_get_status w'.registry 1 = some 0x147f ∧
      w'.params_status = 0 ∧ w'.tty_pgrp = 50 :=
  ⟨by decide, by decide, fg_stopped_job_stays 100 ex_stopped [0] 0x147f [.echild]
    (by decide) (by decide) (by decide) (fun _ => rfl) rfl (by decide) (by decide)⟩

/-- C10 (as amended): let `pgid` be registered, let the calls before the loop
succeed, and let the blocking queries report changes `obs` that are not stops
and then `ECHILD`, the stored status at that moment (the last of `obs`, or the
status `st0` the job had on entry when `obs` is empty) being neither a clean
exit nor a death by signal.  Then no job of group `pgid` is left in the job
table and `params.status` keeps the value it had before the call.  The call
returns `0`, unless the shell is interactive and the `tcsetpgrp` that hands
the terminal back fails: then it returns `-1`. -/
theorem fg_no_exit_status_derived (pgid : Int) (w : World (List job)) (obs : List Int)
    (st0 : Int) (rest : List WaitRes)
    (hpgid : 0 ≤ pgid)
    (hreg : 0 ≤ jobs_get_jid w.registry pgid)
    (huniq : (w.registry.map job.pgid).Nodup)
    (htty : 0 ≤ w.tty_pgrp)
    (hok : ∀ k < w.calls.length + 3, w.fails k = false)
    (hq : w.pending (-pgid) = obs.map .changed ++ .echild :: rest)
    (hobs : ∀ s ∈ obs, WIFSTOPPED s = false)
    (hst0 : jobs_get_status w.registry (jobs_get_jid w.registry pgid) = some st0)
    (hne : WIFEXITED (obs.getLast?.getD st0) = false)
    (hns : WIFSIGNALED (obs.getLast?.getD st0) = false) :
    ∃ w', wait_on_fg_pgid jobsList pgid w =
        (if w.is_interactive && w.fails (w.calls.length + obs.length + 4)
          then some (-1) else some 0, w') ∧
      (∀ j ∈ w'.registry, j.pgid ≠ pgid) ∧
      w'.params_status = w.params_status := by
  obtain ⟨e1, e2, e3, e4, e5, e6, e7⟩ := fg_entered_frame w pgid
  obtain ⟨r', hk, h1, h2, h3, h4, h5⟩ := fg_loop_gone pgid (jobs_get_jid w.registry pgid) rest
    obs ((w.pending (-pgid)).length + 1) (fg_entered w pgid) st0
    (by rw [e2]; exact hq) hobs (by rw [e1]; exact hst0) (by rw [hq]; simp; omega)
  obtain ⟨w', hw, f1, f2, f3, f4, f5, f6⟩ := fg_finish jobsList pgid w _ (obs.length + 1)
    hpgid hreg htty hok (Prod.ext h1 rfl) h4
  refine ⟨w', hw, ?_, ?_⟩
  · rw [f1.trans h2]
    apply jobs_remove_pgid_gone
    rw [map_pgid_of_key _ _ (hk.trans (by rw [e1]))]
    exact huniq
  · rw [f2.trans h3, e3]
    unfold fg_exit_status
    simp [hne, hns]

/-- C10, instance: job 1 was stopped earlier and its group is gone; every call
succeeds. -/
theorem fg_no_exit_status_derived_witness :
    WIFEXITED 0x147f = false ∧ WIFSIGNALED 0x147f = false ∧
    ∃ w', wait_on_fg_pgid jobsList 100 ex_gone_stopped = (some 0, w') ∧
      (∀ j ∈ w'.registry, j.pgid ≠ 100) ∧
      w'.params_status = ex_gone_stopped.params_status :=
  ⟨by decide, by decide, fg_no_exit_status_derived 100 ex_gone_stopped [] 0x147f []
    (by decide) (by decide) (by decide) (by decide) (fun _ _ => rfl) rfl (by decide) rfl
    (by decide) (by decide)⟩

/-- C10 (as stated) fails when the hand-back of the terminal fails: the stored
status `0x147f` is neither an exit nor a death by signal, `ECHILD` is
observed, the job is removed and `params.status` is unchanged, but the call
returns `-1`, not success. -/
theorem fg_no_exit_status_restore_fails :
    WIFEXITED 0x147f = false ∧ WIFSIGNALED 0x147f = false ∧
    ex_gone_stopped_restore_fails.registry = [⟨1, 100, 0x147f⟩] ∧
    ex_gone_stopped_restore_fails.pending (-100) = [.echild] ∧
    (wait_on_fg_pgid jobsList 100 ex_gone_stopped_restore_fails).1 = some (-1) ∧
    (wait_on_fg_pgid jobsList 100 ex_gone_stopped_restore_fails).2.registry = [] ∧
    (wait_on_fg_pgid jobsList 100 ex_gone_stopped_restore_fails).2.params_status =
      ex_gone_stopped_restore_fails.params_status := by
  decide

/-- C8: on a job table whose registered process-group ids are all positive (they
are ids of process groups of the system), for every `pgid` that is not
positive (`pgid <= 0`, `pgid = 0` included) or is not registered,
`wait_on_fg_pgid` returns `-1` and leaves the whole state exactly as it was:
no call is logged (no `SIGCONT`, no terminal call, no status query), and the
job table and `params.status` are unchanged.  A negative `pgid` is stopped by
the guard `pgid < 0`, and `pgid = 0` or an unknown `pgid` by the lookup
`jobs_get_jid`. -/
theorem fg_rejects_before_any_effect (pgid : Int) (w : World (List job))
    (hpos : ∀ j ∈ w.registry, 0 < j.pgid)
    (h : pgid ≤ 0 ∨ pgid ∉ w.registry.map job.pgid) :
    wait_on_fg_pgid jobsList pgid w = (some (-1), w) ∧
    issued w (wait_on_fg_pgid jobsList pgid w).2 = [] ∧
    (wait_on_fg_pgid jobsList pgid w).2.registry = w.registry ∧
    (wait_on_fg_pgid jobsList pgid w).2.params_status = w.params_status := by
  have hnot : pgid < 0 ∨ pgid ∉ w.registry.map job.pgid := by
    rcases h with h | h
    · by_cases h0 : pgid < 0
      · exact Or.inl h0
      · right
        intro hm
        obtain ⟨j, hj, hjp⟩ := List.mem_map.1 hm
        have := hpos j hj
        omega
    · exact Or.inr h
  have hres : wait_on_fg_pgid jobsList pgid w = (some (-1), w) := by
    apply fg_guards
    rcases hnot with h0 | hm
    · exact Or.inl h0
    · right
      show jobs_get_jid w.registry pgid < 0
      rw [jobs_get_jid_not_mem _ _ hm]
      decide
  rw [hres]
  exact ⟨rfl, by simp [issued], rfl, rfl⟩

/-- C8, instances on the table of `ex_pipeline` (one job, of group 100):
`pgid = 0`, the negative `pgid = -5`, and the unregistered `pgid = 200`. -/
theorem fg_rejects_before_any_effect_witness :
    (∀ j ∈ ex_pipeline.registry, 0 < j.pgid) ∧
    wait_on_fg_pgid jobsList 0 ex_pipeline = (some (-1), ex_pipeline) ∧
    wait_on_fg_pgid jobsList (-5) ex_pipeline = (some (-1), ex_pipeline) ∧
    (200 ∉ ex_pipeline.registry.map job.pgid ∧
      wait_on_fg_pgid jobsList 200 ex_pipeline = (some (-1), ex_pipeline)) :=
  ⟨by decide,
   (fg_rejects_before_any_effect 0 ex_pipeline (by decide) (Or.inl (by decide))).1,
   (fg_rejects_before_any_effect (-5) ex_pipeline (by decide) (Or.inl (by decide))).1,
   by decide,
   (fg_rejects_before_any_effect 200 ex_pipeline (by decide) (Or.inr (by decide))).1⟩

/-! ## Claims settled on examples -/

/-- C2, instance of the amended claim: in `ex_pipeline` every call succeeds
and the terminal is back with group 50. -/
theorem fg_terminal_back_unless_restore_fails_witness :
    ex_pipeline.is_interactive = true ∧
    (wait_on_fg_pgid jobsList 100 ex_pipeline).1 = some 0 ∧
    ((wait_on_fg_pgid jobsList 100 ex_pipeline).2.tty_pgrp = ex_pipeline.tty_pgrp ∨
      ((0 : Int) = -1 ∧ (wait_on_fg_pgid jobsList 100 ex_pipeline).2.tty_pgrp = 100 ∧
        (wait_on_fg_pgid jobsList 100 ex_pipeline).2.calls.getLast? =
          some (.tcsetpgrp STDIN_FILENO ex_pipeline.tty_pgrp) ∧
        ex_pipeline.fails ((wait_on_fg_pgid jobsList 100 ex_pipeline).2.calls.length - 1)
          = true)) :=
  ⟨rfl, by decide,
   fg_terminal_back_unless_restore_fails jobsList 100 ex_pipeline
     (wait_on_fg_pgid jobsList 100 ex_pipeline).2 0 rfl (Prod.ext (by decide) rfl)⟩

/-- C2 (as stated) fails when the `tcsetpgrp` that hands the terminal back
fails: the shell is interactive, the terminal is with the shell's group 50 on
entry, the call returns (`-1`), and the terminal is then with the job's group
100. -/
theorem fg_restore_failure_keeps_terminal :
    ex_restore_fails.is_interactive = true ∧
    ex_restore_fails.tty_pgrp = 50 ∧
    (wait_on_fg_pgid jobsList 100 ex_restore_fails).1 = some (-1) ∧
    (wait_on_fg_pgid jobsList 100 ex_restore_fails).2.calls =
      [.kill (-100) SIGCONT, .tcgetpgrp 0, .tcsetpgrp 0 100, .waitpid (-100) ⟨false, true⟩,
       .tcsetpgrp 0 50] ∧
    (wait_on_fg_pgid jobsList 100 ex_restore_fails).2.tty_pgrp = 100 := by
  decide

/-- C6 fails in the code: in non-interactive mode `tcgetpgrp` is still called
(second call of the log), and when it fails the function returns `-1` before
any status query, leaving the job registered; with the same job table and the
same query results but `tcgetpgrp` succeeding, it waits, removes the job and
returns `0`.  No `tcsetpgrp` is issued in either run. -/
theorem fg_noninteractive_calls_tcgetpgrp :
    ex_script.is_interactive = false ∧ ex_script_no_tty.is_interactive = false ∧
    ex_script.registry = ex_script_no_tty.registry ∧
    ex_script.pending (-100) = ex_script_no_tty.pending (-100) ∧
    (wait_on_fg_pgid jobsList 100 ex_script).1 = some 0 ∧
    (wait_on_fg_pgid jobsList 100 ex_script).2.calls =
      [.kill (-100) SIGCONT, .tcgetpgrp 0, .waitpid (-100) ⟨false, true⟩,
       .waitpid (-100) ⟨false, true⟩] ∧
    (wait_on_fg_pgid jobsList 100 ex_script).2.registry = [] ∧
    (wait_on_fg_pgid jobsList 100 ex_script_no_tty).1 = some (-1) ∧
    (wait_on_fg_pgid jobsList 100 ex_script_no_tty).2.calls =
      [.kill (-100) SIGCONT, .tcgetpgrp 0] ∧
    (wait_on_fg_pgid jobsList 100 ex_script_no_tty).2.registry = [⟨1, 100, 0⟩] := by
  decide

/-- C7 fails in the code: for the job of group 1234 the foreground wait
queries `waitpid(-1234, ...)`, any child of process group 1234, while the
background sweep queries `waitpid(1234, ...)`, the single child whose process
id is 1234.  The two queries differ in their target, not only in `WNOHANG`. -/
theorem bg_query_names_one_process :
    (wait_on_bg_jobs jobsList 2 ex_one_job).2.calls = [.waitpid 1234 ⟨true, true⟩] ∧
    (wait_on_fg_pgid jobsList 1234 ex_one_job).2.calls =
      [.kill (-1234) SIGCONT, .tcgetpgrp 0, .tcsetpgrp 0 1234,
       .waitpid (-1234) ⟨false, true⟩] ∧
    waitpid_target 1234 = .process 1234 ∧
    waitpid_target (-1234) = .group 1234 ∧
    waitpid_target 1234 ≠ waitpid_target (-1234) := by
  decide

/-- C9 fails in the code: with two registered jobs whose groups have no
children left, one sweep returns `0` after a single status query: job 1 is
reported and removed, the list is refreshed and `++i` steps over job 2, now
at index 0, which is never queried and stays registered. -/
theorem bg_sweep_skips_after_removal :
    ex_two_done.registry = [⟨1, 100, 0⟩, ⟨2, 200, 0⟩] ∧
    ex_two_done.pending 100 = [.echild] ∧ ex_two_done.pending 200 = [.echild] ∧
    (wait_on_bg_jobs jobsList 3 ex_two_done).1 = some 0 ∧
    (wait_on_bg_jobs jobsList 3 ex_two_done).2.calls = [.waitpid 100 ⟨true, true⟩] ∧
    (wait_on_bg_jobs jobsList 3 ex_two_done).2.stderr = [⟨1, .Done⟩] ∧
    (wait_on_bg_jobs jobsList 3 ex_two_done).2.registry = [⟨2, 200, 0⟩] := by
  decide

/-! ## The background sweep, for any job table -/

/-- A property of the snapshot and the state that each effect of the inner
loop of `wait_on_bg_jobs` keeps holds when that loop is left. -/
theorem bg_poll_inv (P : List job → World R → Prop) (api : JobsApi R) (pgid jid : Int)
    (hcall : ∀ jobs w, P jobs w → P jobs (w.record (bg_query pgid)))
    (hpop : ∀ jobs (w : World R) q, P jobs w → P jobs (w.popped pgid ⟨true, true⟩ q))
    (hset : ∀ jobs (w : World R) s r, P jobs w →
      api.jobs_set_status w.registry jid s = some r → P jobs (w.stored r))
    (hrem : ∀ jobs (w : World R), P jobs w →
      P (api.jobs_get_joblist (api.jobs_remove_pgid w.registry pgid))
        (w.stored (api.jobs_remove_pgid w.registry pgid)))
    (hout : ∀ jobs (w : World R) word, P jobs w → P jobs (w.fprintf jid word)) :
    ∀ (n : Nat) (jobs : List job) (w : World R), P jobs w →
      P (bg_poll api pgid jid n jobs w).2.1 (bg_poll api pgid jid n jobs w).2.2 := by
  intro n
  induction n with
  | zero => intro jobs w hw; exact hw
  | succ n ih =>
    intro jobs w hw
    have h1 := waitpid_inv (P jobs) pgid ⟨true, true⟩ (hcall jobs) (hpop jobs) w hw
    unfold bg_poll
    generalize waitpid w pgid ⟨true, true⟩ = res at h1
    rcases res with ⟨_ | r, w1⟩
    · exact h1
    · cases r with
      | changed status =>
        dsimp only
        cases hr : api.jobs_set_status w1.registry jid status with
        | none => exact h1
        | some r =>
          dsimp only
          split
          · exact hout _ _ _ (hset _ _ _ _ h1 hr)
          · exact ih _ _ (hset _ _ _ _ h1 hr)
      | nochange => exact h1
      | echild =>
        dsimp only
        cases api.jobs_get_status w1.registry jid with
        | none => exact h1
        | some status =>
          dsimp only
          split
          · exact hrem _ _ (hout _ _ _ h1)
          · split
            · exact hrem _ _ (hout _ _ _ h1)
            · exact hrem _ _ h1
      | error => exact h1

/-- A property of the state that each effect of `wait_on_bg_jobs` keeps holds
when the sweep ends. -/
theorem bg_loop_inv (P : World R → Prop) (api : JobsApi R)
    (hcall : ∀ w pgid, P w → P (w.record (bg_query pgid)))
    (hpop : ∀ (w : World R) pgid q, P w → P (w.popped pgid ⟨true, true⟩ q))
    (hreg : ∀ (w : World R) r, P w → P (w.stored r))
    (hout : ∀ (w : World R) jid word, P w → P (w.fprintf jid word)) :
    ∀ (fuel i : Nat) (jobs : List job) (w : World R), P w →
      P (bg_loop api fuel i jobs w).2 := by
  intro fuel
  induction fuel with
  | zero => intro i jobs w hw; exact hw
  | succ fuel ih =>
    intro i jobs w hw
    unfold bg_loop
    cases jobs[i]? with
    | none => exact hw
    | some j =>
      dsimp only
      have h1 := bg_poll_inv (fun _ v => P v) api j.pgid j.jid
        (fun _ v h => hcall v _ h) (fun _ v q h => hpop v _ q h)
        (fun _ v _ r h _ => hreg v r h) (fun _ v h => hreg v _ h)
        (fun _ v word h => hout v _ word h)
        ((w.pending j.pgid).length + 1) jobs w hw
      generalize bg_poll api j.pgid j.jid ((w.pending j.pgid).length + 1) jobs w = res at h1
      rcases res with ⟨fl, jobs1, w1⟩
      cases fl with
      | next => exact ih _ _ _ h1
      | ret r => exact h1
      | spin => exact h1

theorem bg_poll_nochange (api : JobsApi R) (pgid jid : Int) (n : Nat) (jobs : List job)
    (w : World R) (h : w.pending pgid = [] ∨ ∃ q, w.pending pgid = .nochange :: q) :
    ∃ w1, bg_poll api pgid jid (n + 1) jobs w = (.next, jobs, w1) ∧
      w1.calls = w.calls ++ [bg_query pgid] ∧ w1.stderr = w.stderr ∧
      w1.registry = w.registry ∧ w1.params_status = w.params_status ∧
      w1.tty_pgrp = w.tty_pgrp ∧ (∀ p, p ≠ pgid → w1.pending p = w.pending p) := by
  rcases h with h | ⟨q, h⟩
  · refine ⟨w.record (bg_query pgid), ?_, rfl, rfl, rfl, rfl, rfl, fun _ _ => rfl⟩
    rw [bg_poll, waitpid_nil_nohang w pgid true h]
    rfl
  · refine ⟨w.popped pgid ⟨true, true⟩ q, ?_, rfl, rfl, rfl, rfl, rfl, fun p hp => ?_⟩
    · rw [bg_poll, waitpid_cons w pgid _ _ _ h]
    · simp [World.popped, hp]

/-- A sweep over jobs whose queries all report no change: one query per job,
nothing else changes. -/
theorem bg_loop_idle : ∀ (fuel i : Nat) (jobs : List job) (w : World (List job)),
    jobs.length - i < fuel →
    ((jobs.drop i).map job.pgid).Nodup →
    (∀ j ∈ jobs.drop i, w.pending j.pgid = [] ∨ ∃ q, w.pending j.pgid = .nochange :: q) →
    ∃ w', bg_loop jobsList fuel i jobs w = (some 0, w') ∧
      w'.calls = w.calls ++ (jobs.drop i).map (fun j => bg_query j.pgid) ∧
      w'.stderr = w.stderr ∧ w'.registry = w.registry ∧
      w'.params_status = w.params_status ∧ w'.tty_pgrp = w.tty_pgrp := by
  intro fuel
  induction fuel with
  | zero => intro i jobs w h; omega
  | succ fuel ih =>
    intro i jobs w hf hn hidle
    unfold bg_loop
    cases hj : jobs[i]? with
    | none =>
      rw [drop_of_getElem?_none jobs i hj]
      exact ⟨w, rfl, by simp, rfl, rfl, rfl, rfl⟩
    | some j =>
      dsimp only
      have hd := drop_of_getElem? jobs i j hj
      have hi : i < jobs.length := (List.getElem?_eq_some.1 hj).1
      rw [hd] at hn hidle
      simp only [List.map_cons, List.nodup_cons] at hn
      obtain ⟨w1, hp, a1, a2, a3, a4, a5, a6⟩ := bg_poll_nochange jobsList j.pgid j.jid
        (w.pending j.pgid).length jobs w (hidle j (List.mem_cons_self _ _))
      rw [hp]
      dsimp only
      obtain ⟨w', hw, b1, b2, b3, b4, b5⟩ := ih (i + 1) jobs w1 (by omega) hn.2
        (fun x hx => by
          have : x.pgid ≠ j.pgid := fun e => hn.1 (e ▸ List.mem_map_of_mem _ hx)
          rw [a6 _ this]
          exact hidle x (List.mem_cons_of_mem _ hx))
      refine ⟨w', hw, ?_, b2.trans a2, b3.trans a3, b4.trans a4, b5.trans a5⟩
      rw [b1, a1, hd]; simp

/-! ## Claims about `wait_on_bg_jobs` -/

/-- C5: every call that `wait_on_bg_jobs` issues, on any job table and with
any outcomes, is a `waitpid` with `WNOHANG` set.  And on a list job table
with distinct process-group ids in which the query of every job reports no
change (its next result is `0`, or nothing is pending for it), a sweep
returns `0` after exactly one query per registered job, in the order of the
table, writes nothing, and leaves the job table, statuses included, as well as
`params.status` and the terminal, as they were. -/
theorem bg_sweep_nonblocking_idle :
    (∀ (R : Type) (api : JobsApi R) (fuel : Nat) (w : World R),
      ∀ c ∈ issued w (wait_on_bg_jobs api fuel w).2, ∃ pid, c = .waitpid pid ⟨true, true⟩) ∧
    (∀ (fuel : Nat) (w : World (List job)),
      (w.registry.map job.pgid).Nodup →
      (∀ j ∈ w.registry, (w.pending j.pgid).head?.getD .nochange = .nochange) →
      w.registry.length < fuel →
      ∃ w', wait_on_bg_jobs jobsList fuel w = (some 0, w') ∧
        issued w w' = w.registry.map (fun j => bg_query j.pgid) ∧
        emitted w w' = [] ∧
        w'.registry = w.registry ∧
        w'.params_status = w.params_status ∧ w'.tty_pgrp = w.tty_pgrp) := by
  constructor
  · intro R api fuel w
    have := bg_loop_inv (fun v => ∃ c, v.calls = w.calls ++ c ∧
        ∀ x ∈ c, ∃ pid, x = Call.waitpid pid ⟨true, true⟩) api
      (by
        rintro v pgid ⟨c, hc, hc'⟩
        refine ⟨c ++ [bg_query pgid], by simp [World.record, hc], ?_⟩
        intro x hx
        rcases List.mem_append.1 hx with h | h
        · exact hc' x h
        · exact ⟨pgid, by simpa [bg_query] using h⟩)
      (by
        rintro v pgid q ⟨c, hc, hc'⟩
        refine ⟨c ++ [bg_query pgid], by simp [World.popped, hc, bg_query], ?_⟩
        intro x hx
        rcases List.mem_append.1 hx with h | h
        · exact hc' x h
        · exact ⟨pgid, by simpa [bg_query] using h⟩)
      (fun v r h => h) (fun v jid word h => h)
      fuel 0 (api.jobs_get_joblist w.registry) w ⟨[], by simp, by simp⟩
    obtain ⟨c, hc, hc'⟩ := this
    intro x hx
    unfold issued wait_on_bg_jobs at hx
    rw [hc, List.drop_left] at hx
    exact hc' x hx
  · intro fuel w hn hidle hf
    obtain ⟨w', hw, b1, b2, b3, b4, b5⟩ := bg_loop_idle fuel 0 w.registry w (by omega)
      (by simpa using hn) (fun j hj => by
        have := hidle j (by simpa using hj)
        cases hp : w.pending j.pgid with
        | nil => exact Or.inl rfl
        | cons a q =>
          rw [hp] at this
          simp only [List.head?_cons, Option.getD_some] at this
          exact Or.inr ⟨q, by rw [this]⟩)
    refine ⟨w', hw, ?_, ?_, b3, b4, b5⟩
    · unfold issued; rw [b1, List.drop_left]; simp
    · unfold emitted; rw [b2]; simp

/-- C5, instance: two background jobs just launched, polled before anything
happened. -/
theorem bg_sweep_nonblocking_idle_witness :
    (ex_bg_idle.registry.map job.pgid).Nodup ∧
    ∃ w', wait_on_bg_jobs jobsList 3 ex_bg_idle = (some 0, w') ∧
      issued ex_bg_idle w' = [bg_query 100, bg_query 200] ∧
      emitted ex_bg_idle w' = [] ∧
      w'.registry = ex_bg_idle.registry ∧
      w'.params_status = ex_bg_idle.params_status ∧ w'.tty_pgrp = ex_bg_idle.tty_pgrp :=
  ⟨by decide, bg_sweep_nonblocking_idle.2 3 ex_bg_idle (by decide)
    (by decide) (by decide)⟩

end UnixShell
